import Mathlib

/-!
Verification development for the `empty-status` status-bar aggregator
(Rust).  The definitions below are a shallow embedding of the core
machinery in `src/machine/` and `src/core.rs`:

* `src/machine/effects.rs` — the effect engine (HTTP / filesystem /
  directory caches, persistent subprocess line batches);
* `src/machine/http.rs` — the rate-limited client pool;
* `src/machine/types.rs` — the shared unit-machine vocabulary;
* `src/machine/runtime.rs` — the per-unit actor loop, error rendering
  and the i3bar aggregator;
* `src/core.rs` — the click-input reader.

Time is modelled by `Nat` tick counts (`Instant`, `Duration`);
`tokio` hash maps are modelled by association lists; byte buffers by
`List UInt8`.  I/O performed by the engine is modelled by explicit
oracle parameters describing what the outside world would answer, plus
a `Bool` flag recording whether the underlying I/O was performed.
-/

set_option autoImplicit false

deriving instance DecidableEq for Except

namespace EmptyStatus

/-- Instants of `std::time::Instant` / `tokio::time::Instant`, as abstract ticks. -/
abbrev Instant := Nat

/-- Durations, in the same abstract ticks. -/
abbrev Duration := Nat

section Assoc

variable {K V : Type} [DecidableEq K]

/-- Lookup in an association list, modelling `HashMap::get`. -/
def findA (k : K) : List (K × V) → Option V
  | [] => none
  | (k₁, v) :: rest => if k₁ = k then some v else findA k rest

/-- Insert-or-replace in an association list, modelling `HashMap::insert`. -/
def insertA (k : K) (v : V) : List (K × V) → List (K × V)
  | [] => [(k, v)]
  | (k₁, v₁) :: rest => if k₁ = k then (k, v) :: rest else (k₁, v₁) :: insertA k v rest

@[simp] theorem findA_nil (k : K) : findA (V := V) k [] = none := rfl

theorem findA_insertA_self (k : K) (v : V) (l : List (K × V)) :
    findA k (insertA k v l) = some v := by
  induction l with
  | nil => simp [findA, insertA]
  | cons hd tl ih =>
    obtain ⟨k₁, v₁⟩ := hd
    by_cases h : k₁ = k <;> simp [findA, insertA, h, ih]

theorem findA_insertA_ne (k k' : K) (v : V) (l : List (K × V)) (h : k' ≠ k) :
    findA k (insertA k' v l) = findA k l := by
  induction l with
  | nil => simp [findA, insertA, h]
  | cons hd tl ih =>
    obtain ⟨k₁, v₁⟩ := hd
    by_cases h₁ : k₁ = k'
    · subst h₁
      have h₂ : ¬k₁ = k := h
      simp [findA, insertA, h₂]
    · rw [insertA, if_neg h₁]
      by_cases h₂ : k₁ = k
      · simp [findA, h₂]
      · simp [findA, h₂, ih]

theorem findA_isSome_insertA (k k' : K) (v : V) (l : List (K × V)) :
    (findA k l).isSome → (findA k (insertA k' v l)).isSome := by
  intro h
  by_cases hk : k' = k
  · subst hk
    simp [findA_insertA_self]
  · rwa [findA_insertA_ne _ _ _ _ hk]

end Assoc

/-! ## `src/render/markup.rs` (the fragment the runtime uses)

`Markup` is a list of spans; a span is either raw text or a styled
nested markup.  Colors (`Srgb8`) are modelled by their hex strings. -/

/-- One span of `Markup` (`render/markup.rs`: `enum Span`).  A styled
span carries the style's optional foreground and background colors and
the inner markup's span list. -/
inductive Span where
  | text (s : String)
  | styled (fg : Option String) (bg : Option String) (inner : List Span)

/-- `render/markup.rs`: `struct Markup { spans: Vec<Span> }`. -/
structure Markup where
  spans : List Span

/-- `Markup::text`. -/
def Markup.text (s : String) : Markup := ⟨[Span.text s]⟩

/-- `Markup::fg`: wrap the markup in a span styled with
`Style::default().fg(c)`, i.e. foreground `some c`, background `none`. -/
def Markup.fg (m : Markup) (c : String) : Markup :=
  ⟨[Span.styled (some c) none m.spans]⟩

/-- Color constant `RED` from `src/core.rs`. -/
def RED : String := "#CC6666"

/-- Color constant `YELLOW` from `src/core.rs`. -/
def YELLOW : String := "#F0C674"

/-- Color constant `VIOLET` from `src/core.rs`. -/
def VIOLET : String := "#B294BB"

/-- Color constant `DARK_GREY` from `src/core.rs`. -/
def DARK_GREY : String := "#373B41"

/-! ## `src/machine/types.rs` -/

/-- `types.rs`: `enum Health`. -/
inductive Health where
  | ok
  | degraded
  | error
deriving DecidableEq, Repr

/-- `types.rs`: `struct View { body, health }`. -/
structure View where
  body : Markup
  health : Health

/-- `View::ok`. -/
def View.ok (body : Markup) : View := ⟨body, Health.ok⟩

/-- `types.rs`: `enum Availability<T, E>`. -/
inductive Availability (T E : Type) where
  | loading
  | ready (v : T)
  | failed (e : E)
deriving DecidableEq, Repr

/-- `types.rs`: `enum UnitDecision`. -/
inductive UnitDecision where
  | idle
  | pollNow
deriving DecidableEq, Repr

/-- `types.rs`: `enum TransportError { Timeout, Transport(String) }`.
Note: `effects.rs` additionally constructs an `Http { status }` variant
that this declaration (the one in `types.rs` as given) does not have;
the effect engine is therefore embedded below with its own error type
`Effects.TransportError` carrying that variant, while the runtime's
rendering functions consume this one, exactly as `runtime.rs` matches
on it. -/
inductive TransportError where
  | timeout
  | transport (msg : String)
deriving DecidableEq, Repr

/-- `types.rs`: `enum PollError<E>`. -/
inductive PollError (E : Type) where
  | transport (t : TransportError)
  | unit (e : E)
deriving DecidableEq, Repr

/-! ## Error rendering (`src/machine/runtime.rs`) -/

/-- Rust `str::to_ascii_lowercase`: map ASCII uppercase letters to
lowercase, leaving every other character alone. -/
def to_ascii_lowercase (s : String) : String :=
  String.mk (s.data.map (fun c =>
    if 65 ≤ c.toNat ∧ c.toNat ≤ 90 then Char.ofNat (c.toNat + 32) else c))

/-- Whether `pat` occurs as a contiguous substring of `s`; models Rust
`str::contains` for a string pattern. -/
def containsSubstring (s pat : String) : Bool :=
  (List.range (s.data.length + 1)).any
    (fun i => decide (((s.data.drop i).take pat.data.length) = pat.data))

/-- Rust `String::truncate(n)`: keep only the first `n` characters
(the source truncates at a byte count; for the ASCII messages involved
the two coincide). -/
def string_truncate (s : String) (n : Nat) : String :=
  String.mk (s.data.take n)

/-- `runtime.rs`: `render_poll_error`.  Lowercases the unit name; a
transport timeout renders a fixed red timeout message, a transport
error its message, and a unit error is stringified, collapsed to
"HTTP 429" when it mentions 429, otherwise truncated to 80 characters
(`String::truncate(80)`).  Health is `Error` in all three arms. -/
def render_poll_error {E : Type} (display : E → String) (name : String)
    (err : PollError E) : View :=
  let name := to_ascii_lowercase name
  match err with
  | PollError.transport TransportError.timeout =>
      ⟨(Markup.text (name ++ ": timeout")).fg RED, Health.error⟩
  | PollError.transport (TransportError.transport msg) =>
      ⟨(Markup.text (name ++ ": " ++ msg)).fg RED, Health.error⟩
  | PollError.unit e =>
      let msg := display e
      let short :=
        if containsSubstring msg "429" then "HTTP 429" else string_truncate msg 80
      ⟨(Markup.text (name ++ ": " ++ short)).fg RED, Health.error⟩

/-- `runtime.rs`: `render_availability`.  `Loading` renders a violet
"<name> loading" chip with `Degraded` health, `Ready` uses `View::ok`,
`Failed` defers to `render_poll_error`. -/
def render_availability {E : Type} (display : E → String) (name : String)
    (availability : Availability Markup (PollError E)) : View :=
  match availability with
  | Availability.loading =>
      ⟨(Markup.text (to_ascii_lowercase name ++ " loading")).fg VIOLET, Health.degraded⟩
  | Availability.ready body => View.ok body
  | Availability.failed err => render_poll_error display name err

/-! ## `src/render/pango.rs` -/

/-- The single-quote character, written by code point to keep string
literals free of quote characters. -/
def squote : String := (Char.ofNat 39).toString

/-- The double-quote character, by code point. -/
def dquote : String := (Char.ofNat 34).toString

/-- `pango.rs`: `escape_pango`. -/
def escape_pango (text : String) : String :=
  text.data.foldl (fun out c =>
    if c = Char.ofNat 38 then out ++ "&amp;"
    else if c = Char.ofNat 60 then out ++ "&lt;"
    else if c = Char.ofNat 62 then out ++ "&gt;"
    else if c = Char.ofNat 39 then out ++ "&apos;"
    else if c = Char.ofNat 34 then out ++ "&quot;"
    else out.push c) ""

/-- `pango.rs`: `render_text`, for a style with foreground `fg` and
background `bg`. -/
def render_text (text : String) (fg bg : Option String) : String :=
  let text := escape_pango text
  let attrs :=
    (match fg with
     | some f => ["color=" ++ squote ++ f ++ squote]
     | none => []) ++
    (match bg with
     | some b => ["background=" ++ squote ++ b ++ squote]
     | none => [])
  if attrs.isEmpty then text
  else "<span " ++ String.intercalate " " attrs ++ ">" ++ text ++ "</span>"

/-- `pango.rs`: the span-list rendering shared by `to_pango` (outer
style = default, i.e. both `none`) and `render_styled`; a styled child
is rendered under `merge`, where the inner style's components win
(`inner.fg.or(outer.fg)`). -/
def renderSpans (fg bg : Option String) : List Span → String
  | [] => ""
  | Span.text t :: rest => render_text t fg bg ++ renderSpans fg bg rest
  | Span.styled f b inner :: rest =>
      renderSpans (f.orElse fun _ => fg) (b.orElse fun _ => bg) inner
        ++ renderSpans fg bg rest

/-- `pango.rs`: `to_pango` (this is `Display for Markup`, used by
`make_chunk` via `view.body.to_string()`). -/
def to_pango (m : Markup) : String := renderSpans none none m.spans

/-! ## `src/core.rs`: output chunks and click events -/

/-- `core.rs`: `struct OutputChunk`. -/
structure OutputChunk where
  full_text : String
  name : String
  markup : String
  border : String
  separator : String
  separator_block_width : Int
  background : Option String
  color : Option String
deriving DecidableEq, Repr

/-- `OutputChunk::new`. -/
def OutputChunk.new (name text : String) : OutputChunk :=
  { full_text := text
    name := name
    markup := "pango"
    border := DARK_GREY
    separator := "false"
    separator_block_width := 0
    background := none
    color := none }

/-- `core.rs`: `struct ClickEvent` (the `instance` field is named
`inst` here because `instance` is a Lean keyword). -/
structure ClickEvent where
  name : String
  inst : Option String
  button : Int
  modifiers : List String
  x : Int
  y : Int
  relative_x : Int
  relative_y : Int
  width : Int
  height : Int
deriving DecidableEq, Repr

/-! ## `src/machine/runtime.rs`: `make_chunk` and display order -/

/-- `runtime.rs`: `make_chunk`.  Builds the chunk from the pango
rendering of the view body, pads the text with
`" ".repeat(padding.max(0))` on both sides, and colors the border
yellow for `Degraded` health and red for `Error`. -/
def make_chunk (i3_name : String) (padding : Int) (view : View) : OutputChunk :=
  let chunk := OutputChunk.new i3_name (to_pango view.body)
  let pad := String.mk (List.replicate (padding.toNat) (Char.ofNat 32))
  let chunk := { chunk with full_text := pad ++ chunk.full_text ++ pad }
  match view.health with
  | Health.ok => chunk
  | Health.degraded => { chunk with border := YELLOW }
  | Health.error => { chunk with border := RED }

/-- `runtime.rs`: `i3bar_order` — display order is the reverse of
configuration order. -/
def i3bar_order (handles : List Nat) : List Nat :=
  handles.reverse

/-! ## `src/machine/http.rs`: the rate-limited client pool -/

/-- `http.rs`: `struct RateLimitSpec { per: Duration, burst: u32 }`. -/
structure RateLimitSpec where
  per : Duration
  burst : Nat
deriving DecidableEq, Repr

/-- A built HTTP client, modelled by the data `make_http_client` bakes
into it: the host its limiter is routed on and the rate-limit spec the
limiter was configured with. -/
structure HttpClient where
  host : String
  spec : RateLimitSpec
deriving DecidableEq, Repr

/-- `http.rs`: `make_http_client` — builds a client whose middleware
rate-limits requests to `host` according to `spec`. -/
def make_http_client (host : String) (spec : RateLimitSpec) : HttpClient :=
  { host := host, spec := spec }

/-- `http.rs`: `struct ClientPool` — one memoized client per
destination host string. -/
abbrev ClientPool := List (String × HttpClient)

/-- `http.rs`: `ClientPool::client_for_host`.  Returns the memoized
client for `host` when present (its `spec` argument is then unread);
otherwise builds one from `spec`, memoizes and returns it. -/
def client_for_host (pool : ClientPool) (host : String) (spec : RateLimitSpec) :
    HttpClient × ClientPool :=
  match findA host pool with
  | some c => (c, pool)
  | none =>
      let c := make_http_client host spec
      (c, insertA host c pool)

/-! ## `src/machine/effects.rs` -/

namespace Effects

/-- The transport-error type as the effect engine uses it.  Besides the
`Timeout` and `Transport(String)` variants declared in `types.rs`,
`effects.rs` constructs `TransportError::Http { status }` for non-2xx
responses, so the engine is embedded over this extended enum. -/
inductive TransportError where
  | timeout
  | transport (msg : String)
  | http (status : Nat)
deriving DecidableEq, Repr

/-- `effects.rs`: `struct HttpCacheKey(String)`. -/
structure HttpCacheKey where
  key : String
deriving DecidableEq, Repr

/-- `effects.rs`: `struct HttpResponse { body: Bytes }`. -/
structure HttpResponse where
  body : List UInt8
deriving DecidableEq, Repr

/-- `effects.rs`: `struct HttpCacheEntry { fresh_until, response }`. -/
structure HttpCacheEntry where
  fresh_until : Instant
  response : HttpResponse
deriving DecidableEq, Repr

/-- The part of `reqwest::Url` the engine reads: `host_str()`, which is
`None` for host-less URLs. -/
structure Url where
  host_str : Option String
deriving DecidableEq, Repr

/-- `effects.rs`: `struct HttpPolicy { rate, cache_fresh_for }`. -/
structure HttpPolicy where
  rate : RateLimitSpec
  cache_fresh_for : Duration
deriving DecidableEq, Repr

/-- `effects.rs`: `struct HttpGet { key, url, policy }`. -/
structure HttpGet where
  key : HttpCacheKey
  url : Url
  policy : HttpPolicy
deriving DecidableEq, Repr

/-- The HTTP cache map of `HttpState`. -/
abbrev HttpCache := List (HttpCacheKey × HttpCacheEntry)

/-- Oracle for `res.bytes().await`: either the body bytes or a reqwest
error message. -/
inductive BodyOutcome where
  | ok (body : List UInt8)
  | err (msg : String)
deriving DecidableEq, Repr

/-- Oracle describing what `client.get(url).send().await` would do:
fail with a reqwest error, or return a response with the given status
whose body read then behaves as `body` says. -/
inductive FetchOutcome where
  | sendErr (msg : String)
  | response (status : Nat) (body : BodyOutcome)
deriving DecidableEq, Repr

/-- Result of one `EffectEngine::http_get` call: the returned value,
the cache and client pool afterwards, and whether the network was
touched at all (`client.get(..).send()` reached). -/
structure HttpGetOut where
  result : Except TransportError HttpResponse
  cache : HttpCache
  pool : ClientPool
  did_io : Bool
deriving DecidableEq, Repr

/-- The freshness check at the top of `http_get`: the cached response,
provided the entry exists and `now` is strictly before its deadline. -/
def http_cache_hit (cache : HttpCache) (k : HttpCacheKey) (now : Instant) :
    Option HttpResponse :=
  match findA k cache with
  | some ent => if now < ent.fresh_until then some ent.response else none
  | none => none

/-- `effects.rs`: `EffectEngine::http_get`.  A cache entry that is
still fresh (`now < fresh_until`) is returned with no network call.
Otherwise a rate-limited client for the URL's host is obtained (lazily
created), the request is issued, non-2xx statuses are returned as
`Http { status }` and not cached, reqwest failures as
`Transport(msg)` and not cached, and a 2xx body is cached until
`now + cache_fresh_for` (with `now` read at entry to the call). -/
def http_get (fetch : FetchOutcome) (now : Instant) (get : HttpGet)
    (cache : HttpCache) (pool : ClientPool) : HttpGetOut :=
  match http_cache_hit cache get.key now with
  | some response => ⟨Except.ok response, cache, pool, false⟩
  | none =>
      let pool := (client_for_host pool (get.url.host_str.getD "") get.policy.rate).2
      match fetch with
      | FetchOutcome.sendErr msg =>
          ⟨Except.error (TransportError.transport msg), cache, pool, true⟩
      | FetchOutcome.response status body =>
          if 200 ≤ status ∧ status < 300 then
            match body with
            | BodyOutcome.err msg =>
                ⟨Except.error (TransportError.transport msg), cache, pool, true⟩
            | BodyOutcome.ok b =>
                let response : HttpResponse := ⟨b⟩
                ⟨Except.ok response,
                 insertA get.key ⟨now + get.policy.cache_fresh_for, response⟩ cache,
                 pool, true⟩
          else
            ⟨Except.error (TransportError.http status), cache, pool, true⟩

/-- `effects.rs`: `struct FsKey(String)`. -/
structure FsKey where
  key : String
deriving DecidableEq, Repr

/-- `effects.rs`: `struct FsCacheEntry { fresh_until, bytes }`. -/
structure FsCacheEntry where
  fresh_until : Instant
  bytes : List UInt8
deriving DecidableEq, Repr

/-- `effects.rs`: `struct FsRead { key, path, cache_fresh_for }`. -/
structure FsRead where
  key : FsKey
  path : String
  cache_fresh_for : Duration
deriving DecidableEq, Repr

/-- Result of one `EffectEngine::fs_read` call. -/
structure FsReadOut where
  result : Except TransportError (List UInt8)
  cache : List (FsKey × FsCacheEntry)
  did_io : Bool
deriving DecidableEq, Repr

/-- The freshness check at the top of `fs_read`. -/
def fs_cache_hit (cache : List (FsKey × FsCacheEntry)) (k : FsKey)
    (now : Instant) : Option (List UInt8) :=
  match findA k cache with
  | some ent => if now < ent.fresh_until then some ent.bytes else none
  | none => none

/-- `effects.rs`: `EffectEngine::fs_read`, with `readOutcome` the
oracle for `tokio::fs::read(path)`. -/
def fs_read (readOutcome : Except String (List UInt8)) (now : Instant)
    (fr : FsRead) (cache : List (FsKey × FsCacheEntry)) : FsReadOut :=
  match fs_cache_hit cache fr.key now with
  | some bytes => ⟨Except.ok bytes, cache, false⟩
  | none =>
      match readOutcome with
      | Except.error e => ⟨Except.error (TransportError.transport e), cache, true⟩
      | Except.ok bytes =>
          ⟨Except.ok bytes,
           insertA fr.key ⟨now + fr.cache_fresh_for, bytes⟩ cache, true⟩

/-- `effects.rs`: `struct DirKey(String)`. -/
structure DirKey where
  key : String
deriving DecidableEq, Repr

/-- `effects.rs`: `struct DirEntries(Vec<String>)`. -/
structure DirEntries where
  entries : List String
deriving DecidableEq, Repr

/-- `effects.rs`: `struct DirCacheEntry { fresh_until, entries }`. -/
structure DirCacheEntry where
  fresh_until : Instant
  entries : DirEntries
deriving DecidableEq, Repr

/-- `effects.rs`: `struct FsListDir { key, path, cache_fresh_for }`. -/
structure FsListDir where
  key : DirKey
  path : String
  cache_fresh_for : Duration
deriving DecidableEq, Repr

/-- Result of one `EffectEngine::fs_list_dir` call. -/
structure FsListDirOut where
  result : Except TransportError DirEntries
  cache : List (DirKey × DirCacheEntry)
  did_io : Bool
deriving DecidableEq, Repr

/-- The freshness check at the top of `fs_list_dir`. -/
def dir_cache_hit (cache : List (DirKey × DirCacheEntry)) (k : DirKey)
    (now : Instant) : Option DirEntries :=
  match findA k cache with
  | some ent => if now < ent.fresh_until then some ent.entries else none
  | none => none

/-- `effects.rs`: `EffectEngine::fs_list_dir`, with `listOutcome` the
oracle for the `read_dir` traversal. -/
def fs_list_dir (listOutcome : Except String (List String)) (now : Instant)
    (fr : FsListDir) (cache : List (DirKey × DirCacheEntry)) : FsListDirOut :=
  match dir_cache_hit cache fr.key now with
  | some entries => ⟨Except.ok entries, cache, false⟩
  | none =>
      match listOutcome with
      | Except.error e => ⟨Except.error (TransportError.transport e), cache, true⟩
      | Except.ok names =>
          ⟨Except.ok ⟨names⟩,
           insertA fr.key ⟨now + fr.cache_fresh_for, ⟨names⟩⟩ cache, true⟩

/-- `effects.rs`: `struct ProcKey(String)`. -/
structure ProcKey where
  key : String
deriving DecidableEq, Repr

/-- `effects.rs`: `struct ProcBatch { key, cmd, max_lines }`. -/
structure ProcBatch where
  key : ProcKey
  cmd : List String
  max_lines : Nat
deriving DecidableEq, Repr

/-- State of the unbounded mpsc line channel between the stdout drain
task and the engine: the lines currently buffered, and whether the
sender has been dropped (the drain task ended because the child's
stdout reached EOF, i.e. the process exited). -/
structure ChannelState where
  buffered : List String
  closed : Bool
deriving DecidableEq, Repr

/-- `effects.rs`: `struct ProcState { _child, rx }`; the child handle
carries no data, so only the receiver is modelled. -/
structure ProcState where
  rx : ChannelState
deriving DecidableEq, Repr

/-- The `procs` map of the engine. -/
abbrev Procs := List (ProcKey × ProcState)

/-- Result of `UnboundedReceiver::try_recv`: a buffered line if any;
otherwise `Empty` while the sender lives and `Disconnected` once it is
dropped and the buffer is exhausted. -/
inductive TryRecvOut where
  | ok (line : String)
  | empty
  | disconnected
deriving DecidableEq, Repr

/-- `try_recv` on the modelled channel. -/
def try_recv (ch : ChannelState) : TryRecvOut × ChannelState :=
  match ch.buffered with
  | line :: rest => (TryRecvOut.ok line, ⟨rest, ch.closed⟩)
  | [] => if ch.closed then (TryRecvOut.disconnected, ch) else (TryRecvOut.empty, ch)

/-- The `for _ in 0..max_lines { try_recv }` drain loop of
`proc_batch`: `Ok` lines accumulate, `Empty` breaks, `Disconnected`
aborts the call with a transport error (discarding lines already
popped in this call). -/
def drainLoop (fuel : Nat) (ch : ChannelState) :
    Except TransportError (List String) × ChannelState :=
  match fuel with
  | 0 => (Except.ok [], ch)
  | n + 1 =>
      match try_recv ch with
      | (TryRecvOut.ok line, ch₁) =>
          match drainLoop n ch₁ with
          | (Except.ok out, ch₂) => (Except.ok (line :: out), ch₂)
          | (Except.error e, ch₂) => (Except.error e, ch₂)
      | (TryRecvOut.empty, ch₁) => (Except.ok [], ch₁)
      | (TryRecvOut.disconnected, ch₁) =>
          (Except.error (TransportError.transport "proc disconnected"), ch₁)

/-- Result of one `EffectEngine::proc_batch` call: the returned value,
the `procs` map afterwards, and whether this call spawned a child
process. -/
structure ProcBatchOut where
  result : Except TransportError (List String)
  procs : Procs
  spawned : Bool
deriving DecidableEq, Repr

/-- `effects.rs`: `EffectEngine::proc_batch`.  If no process exists
for the key, the command is spawned (`spawn_err` is the oracle for
`cmd.spawn()`) with a fresh empty line channel; an existing process is
reused as-is.  The call then drains up to `max_lines` buffered lines
non-blockingly via `try_recv`. -/
def proc_batch (spawn_err : Option String) (pb : ProcBatch) (procs : Procs) :
    ProcBatchOut :=
  match findA pb.key procs with
  | some st =>
      let (res, ch) := drainLoop pb.max_lines st.rx
      ⟨res, insertA pb.key ⟨ch⟩ procs, false⟩
  | none =>
      match pb.cmd with
      | [] => ⟨Except.error (TransportError.transport "empty command"), procs, false⟩
      | _ :: _ =>
          match spawn_err with
          | some msg => ⟨Except.error (TransportError.transport msg), procs, false⟩
          | none =>
              let st : ProcState := ⟨⟨[], false⟩⟩
              let (res, ch) := drainLoop pb.max_lines st.rx
              ⟨res, insertA pb.key ⟨ch⟩ procs, true⟩

/-- Events acting on the `procs` map over the engine's lifetime: a
`ProcBatch` request, the drain task buffering one stdout line, or the
child exiting (the drain task drops the sender). -/
inductive ProcEvent where
  | call (pb : ProcBatch) (spawn_err : Option String)
  | feed (k : ProcKey) (line : String)
  | close (k : ProcKey)
deriving DecidableEq, Repr

/-- Apply one event to the `procs` map. -/
def procApply (procs : Procs) : ProcEvent → Procs
  | ProcEvent.call pb spawn_err => (proc_batch spawn_err pb procs).procs
  | ProcEvent.feed k line =>
      match findA k procs with
      | some st => insertA k ⟨⟨st.rx.buffered ++ [line], st.rx.closed⟩⟩ procs
      | none => procs
  | ProcEvent.close k =>
      match findA k procs with
      | some st => insertA k ⟨⟨st.rx.buffered, true⟩⟩ procs
      | none => procs

/-- Whether the event, applied to `procs`, spawns a process for key `k`. -/
def spawnsFor (procs : Procs) (ev : ProcEvent) (k : ProcKey) : Bool :=
  match ev with
  | ProcEvent.call pb spawn_err =>
      decide (pb.key = k) && (proc_batch spawn_err pb procs).spawned
  | _ => false

/-- Number of events in the trace that spawn a process for key `k`,
starting from the map `procs`. -/
def spawnCount (k : ProcKey) : Procs → List ProcEvent → Nat
  | _, [] => 0
  | procs, ev :: rest =>
      (if spawnsFor procs ev k then 1 else 0) + spawnCount k (procApply procs ev) rest

end Effects

/-! ## `src/core.rs`: the click-input reader -/

/-- Rust `str::trim_end_matches(',')`: strip every trailing comma. -/
def trim_end_matches_comma (s : String) : String :=
  String.mk ((s.data.reverse.dropWhile (fun c => c = Char.ofNat 44)).reverse)

/-- Rust `str::trim_start_matches(',')`: strip every leading comma. -/
def trim_start_matches_comma (s : String) : String :=
  String.mk (s.data.dropWhile (fun c => c = Char.ofNat 44))

/-- Rust `str::trim`: strip leading and trailing whitespace. -/
def trim_whitespace (s : String) : String :=
  String.mk (((s.data.dropWhile Char.isWhitespace).reverse.dropWhile
    Char.isWhitespace).reverse)

/-- The per-line body of the reader loop in `read_clicks_task`: trim
whitespace, skip blank lines, strip trailing then leading commas, and
hand the rest to the JSON parser (`parse` is the oracle for
`serde_json::from_str::<ClickEvent>`); parse failures are logged and
ignored, yielding `none`. -/
def processClickLine (parse : String → Option ClickEvent) (line : String) :
    Option ClickEvent :=
  let line := trim_whitespace line
  if line = "" then none
  else
    let line := trim_end_matches_comma line
    parse (trim_start_matches_comma line)

/-- The `while let` loop of `read_clicks_task`, forwarding every
successfully parsed click in order. -/
def readClicksLoop (parse : String → Option ClickEvent) : List String → List ClickEvent
  | [] => []
  | line :: rest =>
      match processClickLine parse line with
      | some click => click :: readClicksLoop parse rest
      | none => readClicksLoop parse rest

/-- `core.rs`: `read_clicks_task` over the whole stdin line stream.
The two leading `if let Ok(Some(_)) = lines.next_line()` statements
each consume (and discard) one line before the loop starts. -/
def read_clicks_task (parse : String → Option ClickEvent) :
    List String → List ClickEvent
  | [] => []
  | _first :: rest =>
      match rest with
      | [] => []
      | _second :: rest₂ => readClicksLoop parse rest₂

/-- The claim-side reader, following the spec's words: only the first
line (the framing artifact) is skipped, and every subsequent line is
comma-stripped, parsed and forwarded on success.  Used solely to
compare against `read_clicks_task`. -/
def read_clicks_spec (parse : String → Option ClickEvent) :
    List String → List ClickEvent
  | [] => []
  | _first :: rest => readClicksLoop parse rest

/-! ## `src/machine/types.rs`: the `UnitMachine` trait

The trait is modelled as a record of the unit's pure transition
functions (state mutation becomes explicit state passing).  `poll` is
the one suspending, I/O-performing operation; its outcome is supplied
to the actor as part of the poll-deadline event below. -/

/-- The `UnitMachine` trait (`types.rs`), for state type `S`, poll
output `P` and unit error `E`.  `display` stands for the
`Display` bound on the unit error type; `render_unit_error` has its
trait-default body `Markup::text(err.to_string())`. -/
structure UnitMachine (S P E : Type) where
  name : String
  display : E → String
  init : S × View × UnitDecision
  on_tick : S → S × Option View × UnitDecision
  on_click : S → ClickEvent → S × Option View × UnitDecision
  on_poll_ok : S → P → S × Availability Markup (PollError E) × UnitDecision
  render_unit_error : E → Markup := fun e => Markup.text (display e)

/-- The trait-default body of `render_unit_error` as a standalone
function: stringify the error, nothing more. -/
def render_unit_error_default {E : Type} (display : E → String) (e : E) : Markup :=
  Markup.text (display e)

/-! ## `src/machine/runtime.rs`: the per-unit actor -/

/-- The globally-unique display name `"<kind>::<handle>"` built by
`spawn_machine_actor`. -/
def machine_i3_name {S P E : Type} (m : UnitMachine S P E) (handle : Nat) : String :=
  m.name ++ "::" ++ toString handle

/-- `runtime.rs`: `poll_backoff` (and `poll_interval`): the unit's
poll interval floored by the global minimum polling interval. -/
def spawn_backoff (poll_interval min_polling_interval : Duration) : Duration :=
  max poll_interval min_polling_interval

/-- The mutable state of one actor task: the unit state, the movable
next-poll deadline, and the coalescing click buffer. -/
structure ActorState (S : Type) where
  state : S
  next_poll : Instant
  pending_click : Option ClickEvent

/-- Outcome of `tokio::time::timeout(poll_timeout, machine.poll(..))`:
success, a unit-reported error, or the 10-second timeout elapsing. -/
inductive PollOutcome (P E : Type) where
  | ok (v : P)
  | unitErr (e : E)
  | timeout

/-- One firing of the actor's `select!`: the render tick, the poll
tick, an incoming click from the broadcast channel, or the next-poll
deadline elapsing (carrying the awaited poll's outcome). -/
inductive ActorEvent (P E : Type) where
  | tick
  | pollTick
  | click (c : ClickEvent)
  | pollDue (out : PollOutcome P E)

/-- The `match out` step of the poll-deadline arm: a success is
interpreted by `on_poll_ok`; a unit error becomes
`Failed (Unit e)` with decision `Idle`; a timeout becomes
`Failed (Transport(Timeout))` with decision `Idle`. -/
def pollOutcomeHandle {S P E : Type} (m : UnitMachine S P E) (s : S)
    (out : PollOutcome P E) :
    S × Availability Markup (PollError E) × UnitDecision :=
  match out with
  | PollOutcome.ok v => m.on_poll_ok s v
  | PollOutcome.unitErr e =>
      (s, Availability.failed (PollError.unit e), UnitDecision.idle)
  | PollOutcome.timeout =>
      (s, Availability.failed (PollError.transport TransportError.timeout),
       UnitDecision.idle)

/-- One iteration of the actor loop in `spawn_machine_actor`, at time
`now`.  Returns the successor actor state and the views published to
the watch channel during the iteration, in order.

The `pollDue` arm mirrors the source exactly: the poll outcome is
interpreted, the deadline is set to `now + backoff`, the availability
is rendered and published, a `PollNow` decision pulls the deadline to
`now`, and finally a buffered click (if any) is taken, applied, its
view published and its `PollNow` folded the same way. -/
def actorStep {S P E : Type} (m : UnitMachine S P E) (i3_name : String)
    (backoff : Duration) (now : Instant) (ev : ActorEvent P E)
    (a : ActorState S) : ActorState S × List View :=
  match ev with
  | ActorEvent.tick =>
      let r := m.on_tick a.state
      ({ state := r.1,
         next_poll := if r.2.2 = UnitDecision.pollNow then now else a.next_poll,
         pending_click := a.pending_click }, r.2.1.toList)
  | ActorEvent.pollTick =>
      ({ a with next_poll := now }, [])
  | ActorEvent.click c =>
      if c.name ≠ i3_name then (a, [])
      else if a.pending_click.isSome then
        ({ a with pending_click := some c }, [])
      else
        let r := m.on_click a.state c
        ({ state := r.1,
           next_poll := if r.2.2 = UnitDecision.pollNow then now else a.next_poll,
           pending_click := a.pending_click }, r.2.1.toList)
  | ActorEvent.pollDue out =>
      let h := pollOutcomeHandle m a.state out
      let view := render_availability m.display m.name h.2.1
      let np := if h.2.2 = UnitDecision.pollNow then now else now + backoff
      match a.pending_click with
      | none => ({ state := h.1, next_poll := np, pending_click := none }, [view])
      | some c =>
          let r := m.on_click h.1 c
          ({ state := r.1,
             next_poll := if r.2.2 = UnitDecision.pollNow then now else np,
             pending_click := none }, view :: r.2.1.toList)

/-- The actor state right after `spawn_machine_actor` set up the task:
the unit's initial state, a next-poll deadline of "now" (time 0 — with
or without an init `PollNow`, line 162 and 165-167 both leave it at
the current instant), and no buffered click. -/
def actorInit {S P E : Type} (m : UnitMachine S P E) : ActorState S :=
  { state := m.init.1, next_poll := 0, pending_click := none }

/-- Run the actor over a schedule of timestamped events, collecting
all published views (the initial view seeds the watch channel and is
listed first). -/
def actorRun {S P E : Type} (m : UnitMachine S P E) (i3_name : String)
    (backoff : Duration) (events : List (Instant × ActorEvent P E)) :
    ActorState S × List View :=
  events.foldl
    (fun acc ev =>
      let r := actorStep m i3_name backoff ev.1 ev.2 acc.1
      (r.1, acc.2 ++ r.2))
    (actorInit m, [m.init.2.1])

/-! ## `src/machine/runtime.rs`: the aggregator -/

/-- `runtime.rs`: `struct MachineWrapper`; `init_view` is the view
sitting in the wrapper's watch channel at startup (the `view0` of
`init`), which the aggregator reads with `borrow()` before its loop. -/
structure MachineWrapper where
  i3_name : String
  handle : Nat
  init_view : View

/-- The `latest` snapshot map of `run_empty_status_machines`. -/
abbrev LatestMap := List (Nat × OutputChunk)

/-- The startup fill of `latest`: one chunk per wrapper from its
current (initial) view. -/
def agg_init (padding : Int) (ws : List MachineWrapper) : LatestMap :=
  ws.foldl
    (fun latest w => insertA w.handle (make_chunk w.i3_name padding w.init_view) latest)
    []

/-- Serialize one output line: every handle in display order, looked
up in `latest` (`if let Some(chunk) = latest.get(h)`). -/
def agg_line (latest : LatestMap) (handles : List Nat) : List OutputChunk :=
  (i3bar_order handles).filterMap (fun h => findA h latest)

/-- One aggregator tick: for every wrapper whose watch channel changed
(`upd w.handle = some v` models `has_changed` with new view `v`),
refresh its `latest` entry. -/
def agg_round (padding : Int) (ws : List MachineWrapper)
    (upd : Nat → Option View) (latest : LatestMap) : LatestMap :=
  ws.foldl
    (fun m w =>
      match upd w.handle with
      | some v => insertA w.handle (make_chunk w.i3_name padding v) m
      | none => m)
    latest

/-- The periodic loop of `run_empty_status_machines` over a finite
schedule of ticks, emitting one line per tick after refreshing. -/
def agg_loop (padding : Int) (ws : List MachineWrapper) (handles : List Nat) :
    List (Nat → Option View) → LatestMap → List (List OutputChunk)
  | [], _ => []
  | r :: rs, latest =>
      let latest := agg_round padding ws r latest
      agg_line latest handles :: agg_loop padding ws handles rs latest

/-- `runtime.rs`: `run_empty_status_machines`, as the sequence of
output lines it writes: the immediate startup line first, then one
line per periodic tick. -/
def agg_output (padding : Int) (ws : List MachineWrapper)
    (rounds : List (Nat → Option View)) : List (List OutputChunk) :=
  let latest := agg_init padding ws
  let handles := ws.map (fun w => w.handle)
  agg_line latest handles :: agg_loop padding ws handles rounds latest

/-- The view a unit's watch channel holds after a prefix of aggregator
rounds: its initial view overridden by each round that reported a
change. -/
def viewAfter (v0 : View) (h : Nat) (rounds : List (Nat → Option View)) : View :=
  rounds.foldl (fun v r => (r h).getD v) v0

/-! ## Supporting lemmas -/

/-- A poll-error view always has `Error` health, whichever arm of
`render_poll_error` applies. -/
theorem render_poll_error_health {E : Type} (display : E → String) (name : String)
    (err : PollError E) :
    (render_poll_error display name err).health = Health.error := by
  cases err with
  | transport t => cases t <;> rfl
  | unit e => rfl

/-- The body `render_poll_error` builds for a unit error, written out. -/
theorem render_poll_error_unit_body {E : Type} (display : E → String) (name : String)
    (e : E) :
    (render_poll_error display name (PollError.unit e)).body =
      (Markup.text (to_ascii_lowercase name ++ ": " ++
        (if containsSubstring (display e) "429" then "HTTP 429"
         else string_truncate (display e) 80))).fg RED := rfl

/-! ## Claim theorems -/

/-- C10: for every destination host, the rate-limit spec in force is
the one supplied by the first `client_for_host` call for that host:
the first call builds and memoizes a client from its spec argument,
and every later call for the same host returns that memoized client
and leaves the pool untouched, ignoring its own spec argument. -/
theorem c10_first_spec_wins (pool : ClientPool) (host : String)
    (s₁ s₂ : RateLimitSpec) (h : findA host pool = none) :
    (client_for_host pool host s₁).1 = make_http_client host s₁
  ∧ (client_for_host (client_for_host pool host s₁).2 host s₂).1 =
      make_http_client host s₁
  ∧ (client_for_host (client_for_host pool host s₁).2 host s₂).2 =
      (client_for_host pool host s₁).2
  ∧ ∀ (pool₂ : ClientPool) (c : HttpClient) (s : RateLimitSpec),
      findA host pool₂ = some c → client_for_host pool₂ host s = (c, pool₂) := by
  have hmem : ∀ (s : RateLimitSpec),
      client_for_host pool host s =
        (make_http_client host s, insertA host (make_http_client host s) pool) := by
    intro s
    unfold client_for_host
    rw [h]
  have hfind : findA host (client_for_host pool host s₁).2 =
      some (make_http_client host s₁) := by
    rw [hmem s₁]
    exact findA_insertA_self host _ pool
  have hsecond : ∀ (pool₂ : ClientPool) (c : HttpClient) (s : RateLimitSpec),
      findA host pool₂ = some c → client_for_host pool₂ host s = (c, pool₂) := by
    intro pool₂ c s hc
    unfold client_for_host
    rw [hc]
  refine ⟨by rw [hmem s₁], ?_, ?_, hsecond⟩
  · rw [hsecond _ _ s₂ hfind]
  · rw [hsecond _ _ s₂ hfind]

/-- Witness for C10 at a concrete pool: starting empty, a first call
with burst 2 fixes the spec; a second call with burst 5 still returns
the burst-2 client. -/
theorem c10_first_spec_wins_witness :
    (client_for_host [] "api.example.com" ⟨10, 2⟩).1 =
      make_http_client "api.example.com" ⟨10, 2⟩
  ∧ (client_for_host (client_for_host [] "api.example.com" ⟨10, 2⟩).2
        "api.example.com" ⟨99, 5⟩).1 =
      make_http_client "api.example.com" ⟨10, 2⟩ := by
  have h := c10_first_spec_wins [] "api.example.com" ⟨10, 2⟩ ⟨99, 5⟩ rfl
  exact ⟨h.1, h.2.1⟩

/-- C5: for every view produced by the actor's render path, health is
`Error` exactly on the poll-failure availability (`Failed`, covering
transport timeouts, transport errors and unit errors), `Degraded`
exactly on the loading availability, and `Ok` exactly on `Ready`
payloads; and the view the poll-deadline arm publishes for a timeout
or unit error is precisely the corresponding `render_poll_error`
view. -/
theorem c5_health_classification {E : Type} (display : E → String) (name : String)
    (a : Availability Markup (PollError E)) :
    ((render_availability display name a).health = Health.error ↔
        ∃ e, a = Availability.failed e)
  ∧ ((render_availability display name a).health = Health.degraded ↔
        a = Availability.loading)
  ∧ ((render_availability display name a).health = Health.ok ↔
        ∃ b, a = Availability.ready b)
  ∧ (∀ (S P : Type) (m : UnitMachine S P E) (i3 : String) (backoff now : Duration)
        (st : ActorState S) (e : E),
        (actorStep m i3 backoff now
            (ActorEvent.pollDue (PollOutcome.unitErr e)) st).2.head? =
          some (render_poll_error m.display m.name (PollError.unit e)))
  ∧ (∀ (S P : Type) (m : UnitMachine S P E) (i3 : String) (backoff now : Duration)
        (st : ActorState S),
        (actorStep m i3 backoff now
            (ActorEvent.pollDue (PollOutcome.timeout (E := E))) st).2.head? =
          some (render_poll_error m.display m.name
            (PollError.transport TransportError.timeout))) := by
  refine ⟨?_, ?_, ?_, ?_, ?_⟩
  · cases a with
    | loading => simp [render_availability]
    | ready b => simp [render_availability, View.ok]
    | failed e => simp [render_availability, render_poll_error_health]
  · cases a with
    | loading => simp [render_availability]
    | ready b => simp [render_availability, View.ok]
    | failed e => simp [render_availability, render_poll_error_health]
  · cases a with
    | loading => simp [render_availability]
    | ready b => simp [render_availability, View.ok]
    | failed e => simp [render_availability, render_poll_error_health]
  · intro S P m i3 backoff now st e
    cases hp : st.pending_click <;>
      simp [actorStep, pollOutcomeHandle, hp, render_availability]
  · intro S P m i3 backoff now st
    cases hp : st.pending_click <;>
      simp [actorStep, pollOutcomeHandle, hp, render_availability]

/-- C7 counterexample: the claim's description of the hook is false on
the code.  The trait-default `render_unit_error` only stringifies: on
an error message mentioning 429 it returns the full text, not the
short tag (and performs no truncation), while the view the actor
actually publishes for that error carries the collapsed "HTTP 429"
text produced inline by `render_poll_error` — and the body published
for an error "boom" is the fixed `"<name>: boom"` rendering, not the
output of any hook (e.g. an override returning the tag markup
"TAG"). -/
theorem c7_hook_counterexample :
    render_unit_error_default (fun s => s) "status code 429 too many requests" =
      Markup.text "status code 429 too many requests"
  ∧ render_unit_error_default (fun s => s) "status code 429 too many requests" ≠
      Markup.text "HTTP 429"
  ∧ (render_poll_error (fun s => s) "W"
        (PollError.unit "status code 429 too many requests")).body =
      (Markup.text "w: HTTP 429").fg RED
  ∧ (render_poll_error (fun s => s) "W" (PollError.unit "boom")).body =
      (Markup.text "w: boom").fg RED
  ∧ (render_poll_error (fun s => s) "W" (PollError.unit "boom")).body ≠
      Markup.text "TAG" := by
  refine ⟨rfl, ?_, ?_, ?_, ?_⟩
  · intro h
    simp only [render_unit_error_default, Markup.text, Markup.mk.injEq,
      List.cons.injEq, Span.text.injEq, and_true] at h
    exact absurd h (by decide)
  · rw [render_poll_error_unit_body]
    refine congrArg (fun s : String => (Markup.text s).fg RED) ?_
    decide
  · rw [render_poll_error_unit_body]
    refine congrArg (fun s : String => (Markup.text s).fg RED) ?_
    decide
  · rw [render_poll_error_unit_body]
    intro h
    simp [Markup.text, Markup.fg] at h

/-- C7 amended: unit-level poll errors are rendered by the runtime's
own fixed path, not through the unit's hook.  First, the actor's
behavior is invariant under replacing the unit's `render_unit_error`
implementation (the hook is never invoked); second, the published
body for a unit error is the lowercased name, a colon, and either the
"HTTP 429" tag (when the stringified error mentions 429) or the
message truncated to 80 characters, in red, with `Error` health. -/
theorem c7_runtime_owns_error_rendering :
    (∀ (S P E : Type) (m : UnitMachine S P E) (g : E → Markup) (i3 : String)
        (backoff now : Duration) (ev : ActorEvent P E) (a : ActorState S),
        actorStep { m with render_unit_error := g } i3 backoff now ev a =
          actorStep m i3 backoff now ev a)
  ∧ (∀ (E : Type) (display : E → String) (name : String) (e : E),
        render_poll_error display name (PollError.unit e) =
          ⟨(Markup.text (to_ascii_lowercase name ++ ": " ++
              (if containsSubstring (display e) "429" then "HTTP 429"
               else string_truncate (display e) 80))).fg RED,
            Health.error⟩) := by
  constructor
  · intro S P E m g i3 backoff now ev a
    cases ev <;> rfl
  · intro E display name e
    rfl

/-- A click event with the given name and button and zeroed geometry,
for concrete instances. -/
def mkClick (name : String) (button : Int) : ClickEvent :=
  { name := name
    inst := none
    button := button
    modifiers := []
    x := 0
    y := 0
    relative_x := 0
    relative_y := 0
    width := 0
    height := 0 }

/-- A concrete stand-in for the JSON click parser: recognizes the two
bodies "one" and "two". -/
def toyParse : String → Option ClickEvent := fun s =>
  if s = "one" then some (mkClick "u::0" 1)
  else if s = "two" then some (mkClick "u::0" 2)
  else none

/-- C8 counterexample: the reader does not skip exactly the first
line.  On the stream `["header", "one", "two"]`, where both "one" and
"two" parse as clicks, the code forwards only the click of line
"two" — line "one" (the second line) is consumed by the reader's
second skip — whereas skipping only the first line (the claim,
embodied by `read_clicks_spec`) would forward both. -/
theorem c8_first_line_counterexample :
    read_clicks_task toyParse ["header", "one", "two"] = [mkClick "u::0" 2]
  ∧ read_clicks_spec toyParse ["header", "one", "two"] =
      [mkClick "u::0" 1, mkClick "u::0" 2]
  ∧ read_clicks_task toyParse ["header", "one", "two"] ≠
      read_clicks_spec toyParse ["header", "one", "two"] := by
  refine ⟨by decide, by decide, by decide⟩

/-- C8 amended: the reader skips the first TWO lines of the click
stream; every later line is whitespace-trimmed, blank lines are
ignored, all trailing and then leading commas are stripped before
parsing, lines that fail to parse are dropped (logged, never fatal),
and every successfully parsed line is forwarded in order — i.e. the
reader is exactly `filterMap` of the per-line processing over the
stream minus its first two lines. -/
theorem c8_reader_amended (parse : String → Option ClickEvent)
    (input : List String) :
    read_clicks_task parse input =
      (input.drop 2).filterMap (processClickLine parse) := by
  have hloop : ∀ l : List String,
      readClicksLoop parse l = l.filterMap (processClickLine parse) := by
    intro l
    induction l with
    | nil => rfl
    | cons line rest ih =>
        cases h : processClickLine parse line <;>
          simp [readClicksLoop, List.filterMap_cons, h, ih]
  match input with
  | [] => rfl
  | [a] => rfl
  | a :: b :: rest => simpa [read_clicks_task] using hloop rest

/-- One actor step leaves an empty click buffer empty: the only
assignment filling `pending_click` is guarded by
`pending_click.is_some()`. -/
theorem actorStep_pending_none {S P E : Type} (m : UnitMachine S P E) (i3 : String)
    (backoff : Duration) (now : Instant) (ev : ActorEvent P E) (a : ActorState S)
    (h : a.pending_click = none) :
    (actorStep m i3 backoff now ev a).1.pending_click = none := by
  cases ev with
  | tick => simpa [actorStep] using h
  | pollTick => simpa [actorStep] using h
  | click c =>
      by_cases hn : c.name ≠ i3 <;> simp [actorStep, hn, h]
  | pollDue out => simp [actorStep, h]

/-- Across any whole actor run, the click buffer stays empty: the
buffering branch of the click arm is dead code. -/
theorem actorRun_pending_none {S P E : Type} (m : UnitMachine S P E) (i3 : String)
    (backoff : Duration) (events : List (Instant × ActorEvent P E)) :
    (actorRun m i3 backoff events).1.pending_click = none := by
  suffices h : ∀ (evs : List (Instant × ActorEvent P E))
      (acc : ActorState S × List View), acc.1.pending_click = none →
      (evs.foldl (fun acc ev =>
          let r := actorStep m i3 backoff ev.1 ev.2 acc.1
          (r.1, acc.2 ++ r.2)) acc).1.pending_click = none by
    exact h events (actorInit m, [m.init.2.1]) rfl
  intro evs
  induction evs with
  | nil => exact fun acc h => h
  | cons ev rest ih =>
      intro acc h
      exact ih _ (actorStep_pending_none m i3 backoff ev.1 ev.2 acc.1 h)

/-- A unit machine whose state records every click it is given, used
to observe which clicks the actor applies. -/
def clickRecorder : UnitMachine (List ClickEvent) Unit String :=
  { name := "unit"
    display := fun e => e
    init := ([], ⟨Markup.text "unit loading", Health.degraded⟩, UnitDecision.pollNow)
    on_tick := fun s => (s, none, UnitDecision.idle)
    on_click := fun s c => (s ++ [c], none, UnitDecision.idle)
    on_poll_ok := fun s _ =>
      (s, Availability.ready (Markup.text "ok"), UnitDecision.idle) }

/-- C2: the promised click coalescing does not happen.  Two clicks
addressed to the unit that arrive while a poll is in flight sit in the
broadcast channel (the poll is awaited inline in the `select!` arm),
are received one by one after the poll outcome is handled, and are
BOTH applied through `on_click` — the claim says only the most recent
one is applied.  Moreover the `pending_click` buffer that was meant to
implement the coalescing can never be filled: its only `Some(..)`
assignment is guarded by `pending_click.is_some()`, so the
"apply buffered click after the poll" branch is dead code. -/
theorem c2_clicks_during_poll_all_applied :
    (actorRun clickRecorder "unit::0" 3
        [(5, ActorEvent.pollDue (PollOutcome.ok ())),
         (5, ActorEvent.click (mkClick "unit::0" 1)),
         (5, ActorEvent.click (mkClick "unit::0" 2))]).1.state =
      [mkClick "unit::0" 1, mkClick "unit::0" 2]
  ∧ [mkClick "unit::0" 1, mkClick "unit::0" 2] ≠ [mkClick "unit::0" 2]
  ∧ ∀ (S P E : Type) (m : UnitMachine S P E) (i3 : String) (backoff : Duration)
      (events : List (Instant × ActorEvent P E)),
      (actorRun m i3 backoff events).1.pending_click = none := by
  refine ⟨by decide, by decide, ?_⟩
  intro S P E m i3 backoff events
  exact actorRun_pending_none m i3 backoff events

/-- C3: in the poll-deadline arm the deadline is first advanced to
`now + backoff` (with the backoff the unit's poll interval floored by
the global minimum, `spawn_backoff`), and only afterwards are the
`PollNow` decisions of `on_poll_ok` and of a subsequently applied
buffered click folded in, so any such `PollNow` leaves the deadline at
exactly `now`; with only `Idle` decisions it is `now + backoff`. -/
theorem c3_pollnow_collapses_backoff {S P E : Type} (m : UnitMachine S P E)
    (i3 : String) (pi mi now : Duration) (a : ActorState S)
    (out : PollOutcome P E) :
    (a.pending_click = none →
        (pollOutcomeHandle m a.state out).2.2 = UnitDecision.pollNow →
        (actorStep m i3 (spawn_backoff pi mi) now (ActorEvent.pollDue out) a).1.next_poll
          = now)
  ∧ (a.pending_click = none →
        (pollOutcomeHandle m a.state out).2.2 = UnitDecision.idle →
        (actorStep m i3 (spawn_backoff pi mi) now (ActorEvent.pollDue out) a).1.next_poll
          = now + spawn_backoff pi mi)
  ∧ (∀ c, a.pending_click = some c →
        (m.on_click (pollOutcomeHandle m a.state out).1 c).2.2 = UnitDecision.pollNow →
        (actorStep m i3 (spawn_backoff pi mi) now (ActorEvent.pollDue out) a).1.next_poll
          = now)
  ∧ (∀ c, a.pending_click = some c →
        (pollOutcomeHandle m a.state out).2.2 = UnitDecision.pollNow →
        (m.on_click (pollOutcomeHandle m a.state out).1 c).2.2 = UnitDecision.idle →
        (actorStep m i3 (spawn_backoff pi mi) now (ActorEvent.pollDue out) a).1.next_poll
          = now)
  ∧ (∀ c, a.pending_click = some c →
        (pollOutcomeHandle m a.state out).2.2 = UnitDecision.idle →
        (m.on_click (pollOutcomeHandle m a.state out).1 c).2.2 = UnitDecision.idle →
        (actorStep m i3 (spawn_backoff pi mi) now (ActorEvent.pollDue out) a).1.next_poll
          = now + spawn_backoff pi mi) := by
  refine ⟨?_, ?_, ?_, ?_, ?_⟩
  · intro hp hd
    simp [actorStep, hp, hd]
  · intro hp hd
    simp [actorStep, hp, hd]
  · intro c hp hd
    simp [actorStep, hp, hd]
  · intro c hp hd hd₂
    simp [actorStep, hp, hd, hd₂]
  · intro c hp hd hd₂
    simp [actorStep, hp, hd, hd₂]

/-- A trivial unit machine whose `on_poll_ok` and `on_click` both ask
for an immediate re-poll, for concrete instances. -/
def pollNowMachine : UnitMachine Unit Unit String :=
  { name := "m"
    display := fun e => e
    init := ((), ⟨Markup.text "m loading", Health.degraded⟩, UnitDecision.pollNow)
    on_tick := fun s => (s, none, UnitDecision.idle)
    on_click := fun s _ => (s, none, UnitDecision.pollNow)
    on_poll_ok := fun s _ =>
      (s, Availability.ready (Markup.text "ok"), UnitDecision.pollNow) }

/-- Witness for C3 at concrete inputs: with poll interval 4 floored by
minimum 2 and `now = 7`, a `PollNow` from `on_poll_ok` leaves the
deadline at 7; an idle timeout outcome leaves it at 7 + 4; a buffered
click whose `on_click` says `PollNow` also leaves it at 7. -/
theorem c3_pollnow_collapses_backoff_witness :
    (actorStep pollNowMachine "m::0" (spawn_backoff 4 2) 7
        (ActorEvent.pollDue (PollOutcome.ok ()))
        ⟨(), 0, none⟩).1.next_poll = 7
  ∧ (actorStep pollNowMachine "m::0" (spawn_backoff 4 2) 7
        (ActorEvent.pollDue PollOutcome.timeout)
        ⟨(), 0, none⟩).1.next_poll = 7 + spawn_backoff 4 2
  ∧ (actorStep pollNowMachine "m::0" (spawn_backoff 4 2) 7
        (ActorEvent.pollDue PollOutcome.timeout)
        ⟨(), 0, some (mkClick "m::0" 1)⟩).1.next_poll = 7 := by
  refine ⟨?_, ?_, ?_⟩
  · exact (c3_pollnow_collapses_backoff pollNowMachine "m::0" 4 2 7 ⟨(), 0, none⟩
      (PollOutcome.ok ())).1 rfl rfl
  · exact (c3_pollnow_collapses_backoff pollNowMachine "m::0" 4 2 7 ⟨(), 0, none⟩
      PollOutcome.timeout).2.1 rfl rfl
  · exact (c3_pollnow_collapses_backoff pollNowMachine "m::0" 4 2 7
      ⟨(), 0, some (mkClick "m::0" 1)⟩ PollOutcome.timeout).2.2.1
      (mkClick "m::0" 1) rfl rfl

/-- C1: cache freshness for every cached effect kind (HTTP get,
filesystem read, directory listing).  A request while the entry is
still fresh (`now` strictly before the entry's deadline) returns the
identical cached payload, performs no I/O and leaves all state
untouched; a request at or after the deadline performs the I/O again
and (when the fetch succeeds — for HTTP, a 2xx status with a readable
body) overwrites the entry with deadline `now` plus the key's
freshness duration. -/
theorem c1_cache_freshness :
    (∀ (fetch : Effects.FetchOutcome) (now : Instant) (get : Effects.HttpGet)
        (cache : Effects.HttpCache) (pool : ClientPool)
        (ent : Effects.HttpCacheEntry),
        findA get.key cache = some ent → now < ent.fresh_until →
        Effects.http_get fetch now get cache pool =
          ⟨Except.ok ent.response, cache, pool, false⟩)
  ∧ (∀ (status : Nat) (body : List UInt8) (now : Instant) (get : Effects.HttpGet)
        (cache : Effects.HttpCache) (pool : ClientPool)
        (ent : Effects.HttpCacheEntry),
        findA get.key cache = some ent → ent.fresh_until ≤ now →
        200 ≤ status → status < 300 →
        Effects.http_get
            (Effects.FetchOutcome.response status (Effects.BodyOutcome.ok body))
            now get cache pool =
          ⟨Except.ok ⟨body⟩,
           insertA get.key ⟨now + get.policy.cache_fresh_for, ⟨body⟩⟩ cache,
           (client_for_host pool (get.url.host_str.getD "") get.policy.rate).2,
           true⟩)
  ∧ (∀ (readOutcome : Except String (List UInt8)) (now : Instant)
        (fr : Effects.FsRead) (cache : List (Effects.FsKey × Effects.FsCacheEntry))
        (ent : Effects.FsCacheEntry),
        findA fr.key cache = some ent → now < ent.fresh_until →
        Effects.fs_read readOutcome now fr cache = ⟨Except.ok ent.bytes, cache, false⟩)
  ∧ (∀ (bytes : List UInt8) (now : Instant) (fr : Effects.FsRead)
        (cache : List (Effects.FsKey × Effects.FsCacheEntry))
        (ent : Effects.FsCacheEntry),
        findA fr.key cache = some ent → ent.fresh_until ≤ now →
        Effects.fs_read (Except.ok bytes) now fr cache =
          ⟨Except.ok bytes,
           insertA fr.key ⟨now + fr.cache_fresh_for, bytes⟩ cache, true⟩)
  ∧ (∀ (listOutcome : Except String (List String)) (now : Instant)
        (fr : Effects.FsListDir)
        (cache : List (Effects.DirKey × Effects.DirCacheEntry))
        (ent : Effects.DirCacheEntry),
        findA fr.key cache = some ent → now < ent.fresh_until →
        Effects.fs_list_dir listOutcome now fr cache =
          ⟨Except.ok ent.entries, cache, false⟩)
  ∧ (∀ (names : List String) (now : Instant) (fr : Effects.FsListDir)
        (cache : List (Effects.DirKey × Effects.DirCacheEntry))
        (ent : Effects.DirCacheEntry),
        findA fr.key cache = some ent → ent.fresh_until ≤ now →
        Effects.fs_list_dir (Except.ok names) now fr cache =
          ⟨Except.ok ⟨names⟩,
           insertA fr.key ⟨now + fr.cache_fresh_for, ⟨names⟩⟩ cache, true⟩) := by
  refine ⟨?_, ?_, ?_, ?_, ?_, ?_⟩
  · intro fetch now get cache pool ent hfind hlt
    simp [Effects.http_get, Effects.http_cache_hit, hfind, hlt]
  · intro status body now get cache pool ent hfind hle h200 h300
    have hnl : ¬ now < ent.fresh_until := Nat.not_lt.mpr hle
    simp [Effects.http_get, Effects.http_cache_hit, hfind, hnl, h200, h300]
  · intro readOutcome now fr cache ent hfind hlt
    simp [Effects.fs_read, Effects.fs_cache_hit, hfind, hlt]
  · intro bytes now fr cache ent hfind hle
    have hnl : ¬ now < ent.fresh_until := Nat.not_lt.mpr hle
    simp [Effects.fs_read, Effects.fs_cache_hit, hfind, hnl]
  · intro listOutcome now fr cache ent hfind hlt
    simp [Effects.fs_list_dir, Effects.dir_cache_hit, hfind, hlt]
  · intro names now fr cache ent hfind hle
    have hnl : ¬ now < ent.fresh_until := Nat.not_lt.mpr hle
    simp [Effects.fs_list_dir, Effects.dir_cache_hit, hfind, hnl]

/-- Witness for C1 at concrete inputs, one per conjunct: a fresh hit
(time 5, deadline 10) returns the cached payload with no I/O for all
three kinds, and a stale request (time 10) refreshes the entry with
deadline 10 + the configured freshness. -/
theorem c1_cache_freshness_witness :
    Effects.http_get (Effects.FetchOutcome.sendErr "down") 5
        ⟨⟨"k"⟩, ⟨some "api"⟩, ⟨⟨60, 3⟩, 30⟩⟩
        [(⟨"k"⟩, ⟨10, ⟨[1, 2]⟩⟩)] [] =
      ⟨Except.ok ⟨[1, 2]⟩, [(⟨"k"⟩, ⟨10, ⟨[1, 2]⟩⟩)], [], false⟩
  ∧ Effects.http_get
        (Effects.FetchOutcome.response 204 (Effects.BodyOutcome.ok [9])) 10
        ⟨⟨"k"⟩, ⟨some "api"⟩, ⟨⟨60, 3⟩, 30⟩⟩
        [(⟨"k"⟩, ⟨10, ⟨[1, 2]⟩⟩)] [] =
      ⟨Except.ok ⟨[9]⟩,
       insertA ⟨"k"⟩ ⟨10 + 30, ⟨[9]⟩⟩ [(⟨"k"⟩, ⟨10, ⟨[1, 2]⟩⟩)],
       (client_for_host [] "api" ⟨60, 3⟩).2, true⟩
  ∧ Effects.fs_read (Except.ok [8]) 5 ⟨⟨"f"⟩, "/proc/x", 20⟩
        [(⟨"f"⟩, ⟨10, [7]⟩)] =
      ⟨Except.ok [7], [(⟨"f"⟩, ⟨10, [7]⟩)], false⟩
  ∧ Effects.fs_read (Except.ok [8]) 10 ⟨⟨"f"⟩, "/proc/x", 20⟩
        [(⟨"f"⟩, ⟨10, [7]⟩)] =
      ⟨Except.ok [8], insertA ⟨"f"⟩ ⟨10 + 20, [8]⟩ [(⟨"f"⟩, ⟨10, [7]⟩)], true⟩
  ∧ Effects.fs_list_dir (Except.ok ["b"]) 5 ⟨⟨"d"⟩, "/sys/y", 20⟩
        [(⟨"d"⟩, ⟨10, ⟨["a"]⟩⟩)] =
      ⟨Except.ok ⟨["a"]⟩, [(⟨"d"⟩, ⟨10, ⟨["a"]⟩⟩)], false⟩
  ∧ Effects.fs_list_dir (Except.ok ["b"]) 10 ⟨⟨"d"⟩, "/sys/y", 20⟩
        [(⟨"d"⟩, ⟨10, ⟨["a"]⟩⟩)] =
      ⟨Except.ok ⟨["b"]⟩,
       insertA ⟨"d"⟩ ⟨10 + 20, ⟨["b"]⟩⟩ [(⟨"d"⟩, ⟨10, ⟨["a"]⟩⟩)], true⟩ := by
  obtain ⟨h1, h2, h3, h4, h5, h6⟩ := c1_cache_freshness
  exact ⟨h1 _ 5 _ _ [] ⟨10, ⟨[1, 2]⟩⟩ (by decide) (by decide),
    h2 204 [9] 10 _ _ [] ⟨10, ⟨[1, 2]⟩⟩ (by decide) (by decide) (by decide) (by decide),
    h3 _ 5 _ _ ⟨10, [7]⟩ (by decide) (by decide),
    h4 [8] 10 _ _ ⟨10, [7]⟩ (by decide) (by decide),
    h5 _ 5 _ _ ⟨10, ⟨["a"]⟩⟩ (by decide) (by decide),
    h6 ["b"] 10 _ _ ⟨10, ⟨["a"]⟩⟩ (by decide) (by decide)⟩

/-- C4: a failed fetch never modifies the HTTP cache.  Whenever
`http_get` returns an error — for any fetch behavior — the cache is
exactly what it was; and on the fetch path (no fresh entry) a non-2xx
status is returned as the typed `Http { status }` error, a send
failure and a body-read failure as `Transport` errors, none of them
cached. -/
theorem c4_failed_fetch_not_cached :
    (∀ (fetch : Effects.FetchOutcome) (now : Instant) (get : Effects.HttpGet)
        (cache : Effects.HttpCache) (pool : ClientPool)
        (e : Effects.TransportError),
        (Effects.http_get fetch now get cache pool).result = Except.error e →
        (Effects.http_get fetch now get cache pool).cache = cache)
  ∧ (∀ (status : Nat) (body : Effects.BodyOutcome) (now : Instant)
        (get : Effects.HttpGet) (cache : Effects.HttpCache) (pool : ClientPool),
        Effects.http_cache_hit cache get.key now = none →
        ¬(200 ≤ status ∧ status < 300) →
        Effects.http_get (Effects.FetchOutcome.response status body) now get
            cache pool =
          ⟨Except.error (Effects.TransportError.http status), cache,
           (client_for_host pool (get.url.host_str.getD "") get.policy.rate).2,
           true⟩)
  ∧ (∀ (msg : String) (now : Instant) (get : Effects.HttpGet)
        (cache : Effects.HttpCache) (pool : ClientPool),
        Effects.http_cache_hit cache get.key now = none →
        Effects.http_get (Effects.FetchOutcome.sendErr msg) now get cache pool =
          ⟨Except.error (Effects.TransportError.transport msg), cache,
           (client_for_host pool (get.url.host_str.getD "") get.policy.rate).2,
           true⟩)
  ∧ (∀ (status : Nat) (msg : String) (now : Instant) (get : Effects.HttpGet)
        (cache : Effects.HttpCache) (pool : ClientPool),
        Effects.http_cache_hit cache get.key now = none →
        200 ≤ status → status < 300 →
        Effects.http_get
            (Effects.FetchOutcome.response status (Effects.BodyOutcome.err msg))
            now get cache pool =
          ⟨Except.error (Effects.TransportError.transport msg), cache,
           (client_for_host pool (get.url.host_str.getD "") get.policy.rate).2,
           true⟩) := by
  refine ⟨?_, ?_, ?_, ?_⟩
  · intro fetch now get cache pool e herr
    cases hh : Effects.http_cache_hit cache get.key now with
    | some r => simp [Effects.http_get, hh] at herr
    | none =>
        cases fetch with
        | sendErr msg => simp [Effects.http_get, hh]
        | response status body =>
            by_cases h2 : 200 ≤ status ∧ status < 300
            · cases body with
              | ok b => simp [Effects.http_get, hh, h2] at herr
              | err msg => simp [Effects.http_get, hh, h2]
            · simp [Effects.http_get, hh, h2]
  · intro status body now get cache pool hh h2
    simp [Effects.http_get, hh, h2]
  · intro msg now get cache pool hh
    simp [Effects.http_get, hh]
  · intro status msg now get cache pool hh h200 h300
    simp [Effects.http_get, hh, h200, h300]

/-- Witness for C4 at concrete inputs: with a stale entry for key "k"
at time 10, a 404 response, a send failure and a body-read failure
each return the corresponding typed error and leave the cache entry
exactly as it was. -/
theorem c4_failed_fetch_not_cached_witness :
    (Effects.http_get (Effects.FetchOutcome.sendErr "conn refused") 10
        ⟨⟨"k"⟩, ⟨some "api"⟩, ⟨⟨60, 3⟩, 30⟩⟩
        [(⟨"k"⟩, ⟨10, ⟨[1, 2]⟩⟩)] []).cache = [(⟨"k"⟩, ⟨10, ⟨[1, 2]⟩⟩)]
  ∧ Effects.http_get
        (Effects.FetchOutcome.response 404 (Effects.BodyOutcome.ok [9])) 10
        ⟨⟨"k"⟩, ⟨some "api"⟩, ⟨⟨60, 3⟩, 30⟩⟩
        [(⟨"k"⟩, ⟨10, ⟨[1, 2]⟩⟩)] [] =
      ⟨Except.error (Effects.TransportError.http 404),
       [(⟨"k"⟩, ⟨10, ⟨[1, 2]⟩⟩)], (client_for_host [] "api" ⟨60, 3⟩).2, true⟩
  ∧ Effects.http_get (Effects.FetchOutcome.sendErr "conn refused") 10
        ⟨⟨"k"⟩, ⟨some "api"⟩, ⟨⟨60, 3⟩, 30⟩⟩
        [(⟨"k"⟩, ⟨10, ⟨[1, 2]⟩⟩)] [] =
      ⟨Except.error (Effects.TransportError.transport "conn refused"),
       [(⟨"k"⟩, ⟨10, ⟨[1, 2]⟩⟩)], (client_for_host [] "api" ⟨60, 3⟩).2, true⟩
  ∧ Effects.http_get
        (Effects.FetchOutcome.response 200 (Effects.BodyOutcome.err "reset")) 10
        ⟨⟨"k"⟩, ⟨some "api"⟩, ⟨⟨60, 3⟩, 30⟩⟩
        [(⟨"k"⟩, ⟨10, ⟨[1, 2]⟩⟩)] [] =
      ⟨Except.error (Effects.TransportError.transport "reset"),
       [(⟨"k"⟩, ⟨10, ⟨[1, 2]⟩⟩)], (client_for_host [] "api" ⟨60, 3⟩).2, true⟩ := by
  obtain ⟨h1, h2, h3, h4⟩ := c4_failed_fetch_not_cached
  exact ⟨h1 _ 10 _ _ [] (Effects.TransportError.transport "conn refused") (by decide),
    h2 404 _ 10 _ _ [] (by decide) (by decide),
    h3 "conn refused" 10 _ _ [] (by decide),
    h4 200 "reset" 10 _ _ [] (by decide) (by decide) (by decide)⟩

namespace Effects

/-- Closed form of the `proc_batch` drain loop: it consumes the first
`fuel` buffered lines; if the buffer runs out before the fuel while
the channel is closed, the call aborts with the disconnect transport
error, otherwise it returns the consumed prefix. -/
theorem drainLoop_spec (fuel : Nat) (ch : ChannelState) :
    drainLoop fuel ch =
      ((if ch.closed ∧ ch.buffered.length < fuel then
          Except.error (TransportError.transport "proc disconnected")
        else Except.ok (ch.buffered.take fuel)),
       ⟨ch.buffered.drop fuel, ch.closed⟩) := by
  induction fuel generalizing ch with
  | zero => simp [drainLoop]
  | succ n ih =>
      obtain ⟨buf, closed⟩ := ch
      cases buf with
      | nil => cases closed <;> simp [drainLoop, try_recv]
      | cons l rest =>
          cases closed with
          | false => simp [drainLoop, try_recv, ih ⟨rest, false⟩]
          | true =>
              by_cases hlen : rest.length < n
              · simp [drainLoop, try_recv, ih ⟨rest, true⟩, hlen,
                  Nat.succ_lt_succ hlen]
              · have hlen₂ : ¬ (l :: rest).length < n + 1 := by
                  simpa [Nat.succ_lt_succ_iff] using hlen
                simp [drainLoop, try_recv, ih ⟨rest, true⟩, hlen, hlen₂]

/-- A spawning `proc_batch` call leaves the key present in the map. -/
theorem proc_batch_spawned_present (spawn_err : Option String) (pb : ProcBatch)
    (procs : Procs) (h : (proc_batch spawn_err pb procs).spawned = true) :
    ((findA pb.key (proc_batch spawn_err pb procs).procs).isSome) = true := by
  cases hf : findA pb.key procs with
  | some st => simp [proc_batch, hf] at h
  | none =>
      cases hcmd : pb.cmd with
      | nil => simp [proc_batch, hf, hcmd] at h
      | cons c cs =>
          cases spawn_err with
          | some msg => simp [proc_batch, hf, hcmd] at h
          | none => simp [proc_batch, hf, hcmd, findA_insertA_self]

/-- Every event preserves the presence of a key in the map: keys are
never removed. -/
theorem procApply_preserves_present (procs : Procs) (ev : ProcEvent)
    (k : ProcKey) (h : (findA k procs).isSome = true) :
    (findA k (procApply procs ev)).isSome = true := by
  cases ev with
  | call pb spawn_err =>
      cases hf : findA pb.key procs with
      | some st =>
          simpa [procApply, proc_batch, hf] using
            findA_isSome_insertA k pb.key
              ⟨(drainLoop pb.max_lines st.rx).2⟩ procs h
      | none =>
          cases hcmd : pb.cmd with
          | nil => simpa [procApply, proc_batch, hf, hcmd] using h
          | cons c cs =>
              cases spawn_err with
              | some msg => simpa [procApply, proc_batch, hf, hcmd] using h
              | none =>
                  simpa [procApply, proc_batch, hf, hcmd] using
                    findA_isSome_insertA k pb.key
                      ⟨(drainLoop pb.max_lines ⟨[], false⟩).2⟩ procs h
  | feed k₁ line =>
      cases hf : findA k₁ procs with
      | some st =>
          simpa [procApply, hf] using
            findA_isSome_insertA k k₁
              ⟨⟨st.rx.buffered ++ [line], st.rx.closed⟩⟩ procs h
      | none => simpa [procApply, hf] using h
  | close k₁ =>
      cases hf : findA k₁ procs with
      | some st =>
          simpa [procApply, hf] using
            findA_isSome_insertA k k₁ ⟨⟨st.rx.buffered, true⟩⟩ procs h
      | none => simpa [procApply, hf] using h

/-- While a key is present, no later event spawns for it. -/
theorem spawnCount_zero_of_present (k : ProcKey) (evs : List ProcEvent) :
    ∀ (procs : Procs), (findA k procs).isSome = true →
    spawnCount k procs evs = 0 := by
  induction evs with
  | nil => intro procs _; rfl
  | cons ev rest ih =>
      intro procs h
      have hspawn : spawnsFor procs ev k = false := by
        cases ev with
        | call pb spawn_err =>
            by_cases hk : pb.key = k
            · subst hk
              obtain ⟨st, hst⟩ := Option.isSome_iff_exists.mp h
              simp [spawnsFor, proc_batch, hst]
            · simp [spawnsFor, hk]
        | feed k₁ line => rfl
        | close k₁ => rfl
      have := ih (procApply procs ev) (procApply_preserves_present procs ev k h)
      simp [spawnCount, hspawn, this]

/-- From any starting map, a trace spawns at most once per key. -/
theorem spawnCount_le_one (k : ProcKey) (evs : List ProcEvent) :
    ∀ (procs : Procs), spawnCount k procs evs ≤ 1 := by
  induction evs with
  | nil => intro procs; simp [spawnCount]
  | cons ev rest ih =>
      intro procs
      by_cases hs : spawnsFor procs ev k = true
      · have hpresent : (findA k (procApply procs ev)).isSome = true := by
          cases ev with
          | call pb spawn_err =>
              have hk : pb.key = k := by
                by_contra hk
                simp [spawnsFor, hk] at hs
              have hsp : (proc_batch spawn_err pb procs).spawned = true := by
                simpa [spawnsFor, hk] using hs
              subst hk
              simpa [procApply] using
                proc_batch_spawned_present spawn_err pb procs hsp
          | feed k₁ line => simp [spawnsFor] at hs
          | close k₁ => simp [spawnsFor] at hs
        have hz := spawnCount_zero_of_present k rest (procApply procs ev) hpresent
        simp [spawnCount, hs, hz]
      · have hs' : spawnsFor procs ev k = false := by
          simpa using hs
        have := ih (procApply procs ev)
        simpa [spawnCount, hs'] using this

end Effects

/-- C9: process reuse and at-most-once line delivery.  (a) Over any
event trace from engine startup, at most one process is ever spawned
per `ProcKey`; (b) a `ProcBatch` call for a key with a live entry
never spawns (never restarts); (c) such a call drains exactly the
first `max_lines` currently-buffered lines (or aborts with the
disconnect error if the buffer runs out while the channel is closed),
removing what it consumed from the buffer — so a buffered line is
delivered to at most one call; (d) when the queue reports the process
exited (closed channel, fewer buffered lines than requested), the call
returns the disconnect transport error. -/
theorem c9_proc_reuse :
    (∀ (evs : List Effects.ProcEvent) (k : Effects.ProcKey),
        Effects.spawnCount k [] evs ≤ 1)
  ∧ (∀ (spawn_err : Option String) (pb : Effects.ProcBatch)
        (procs : Effects.Procs) (st : Effects.ProcState),
        findA pb.key procs = some st →
        (Effects.proc_batch spawn_err pb procs).spawned = false)
  ∧ (∀ (spawn_err : Option String) (pb : Effects.ProcBatch)
        (procs : Effects.Procs) (st : Effects.ProcState),
        findA pb.key procs = some st →
        Effects.proc_batch spawn_err pb procs =
          ⟨(if st.rx.closed ∧ st.rx.buffered.length < pb.max_lines then
              Except.error (Effects.TransportError.transport "proc disconnected")
            else Except.ok (st.rx.buffered.take pb.max_lines)),
           insertA pb.key ⟨⟨st.rx.buffered.drop pb.max_lines, st.rx.closed⟩⟩ procs,
           false⟩)
  ∧ (∀ (spawn_err : Option String) (pb : Effects.ProcBatch)
        (procs : Effects.Procs) (st : Effects.ProcState),
        findA pb.key procs = some st →
        st.rx.closed = true → st.rx.buffered.length < pb.max_lines →
        (Effects.proc_batch spawn_err pb procs).result =
          Except.error (Effects.TransportError.transport "proc disconnected")) := by
  refine ⟨?_, ?_, ?_, ?_⟩
  · intro evs k
    exact Effects.spawnCount_le_one k evs []
  · intro spawn_err pb procs st hfind
    simp [Effects.proc_batch, hfind]
  · intro spawn_err pb procs st hfind
    simp [Effects.proc_batch, hfind, Effects.drainLoop_spec]
  · intro spawn_err pb procs st hfind hclosed hlen
    simp [Effects.proc_batch, hfind, Effects.drainLoop_spec, hclosed, hlen]

/-- Witness for C9 at a concrete map: key "p" holds an exited process
with two buffered lines.  A call asking for one line gets the first
buffered line (and never the same line again: the buffer advances); a
call asking for five lines hits the closed, exhausted queue and gets
the disconnect error; neither call spawns. -/
theorem c9_proc_reuse_witness :
    (Effects.proc_batch none ⟨⟨"p"⟩, ["iostat"], 1⟩
        [(⟨"p"⟩, ⟨⟨["l1", "l2"], true⟩⟩)]).spawned = false
  ∧ Effects.proc_batch none ⟨⟨"p"⟩, ["iostat"], 1⟩
        [(⟨"p"⟩, ⟨⟨["l1", "l2"], true⟩⟩)] =
      ⟨Except.ok ["l1"], insertA ⟨"p"⟩ ⟨⟨["l2"], true⟩⟩
        [(⟨"p"⟩, ⟨⟨["l1", "l2"], true⟩⟩)], false⟩
  ∧ (Effects.proc_batch none ⟨⟨"p"⟩, ["iostat"], 5⟩
        [(⟨"p"⟩, ⟨⟨["l1", "l2"], true⟩⟩)]).result =
      Except.error (Effects.TransportError.transport "proc disconnected") := by
  obtain ⟨_, h2, h3, h4⟩ := c9_proc_reuse
  refine ⟨h2 none ⟨⟨"p"⟩, ["iostat"], 1⟩ [(⟨"p"⟩, ⟨⟨["l1", "l2"], true⟩⟩)]
      ⟨⟨["l1", "l2"], true⟩⟩ (by decide), ?_, ?_⟩
  · have := h3 none ⟨⟨"p"⟩, ["iostat"], 1⟩ [(⟨"p"⟩, ⟨⟨["l1", "l2"], true⟩⟩)]
      ⟨⟨["l1", "l2"], true⟩⟩ (by decide)
    simpa using this
  · exact h4 none ⟨⟨"p"⟩, ["iostat"], 5⟩ [(⟨"p"⟩, ⟨⟨["l1", "l2"], true⟩⟩)]
      ⟨⟨["l1", "l2"], true⟩⟩ (by decide) (by decide) (by decide)

@[simp] theorem viewAfter_nil (v : View) (h : Nat) : viewAfter v h [] = v := rfl

@[simp] theorem viewAfter_cons (v : View) (h : Nat) (r : Nat → Option View)
    (rs : List (Nat → Option View)) :
    viewAfter v h (r :: rs) = viewAfter ((r h).getD v) h rs := rfl

theorem take_one_cons {α : Type} (a : α) (l : List α) : (a :: l).take 1 = [a] := rfl

/-- `filterMap` of a lookup over mapped handles is the map of the
looked-up values, when every lookup succeeds. -/
theorem filterMap_findA_map (latest : LatestMap) (f : MachineWrapper → OutputChunk) :
    ∀ (l : List MachineWrapper),
    (∀ w ∈ l, findA w.handle latest = some (f w)) →
    (l.map (fun w => w.handle)).filterMap (fun h => findA h latest) = l.map f := by
  intro l
  induction l with
  | nil => intro _; rfl
  | cons w tl ih =>
      intro hw
      simp only [List.map_cons, List.filterMap_cons,
        hw w (List.mem_cons_self w tl)]
      rw [ih (fun x hx => hw x (List.mem_cons_of_mem w hx))]

/-- One output line lists, in reverse configuration order, each
wrapper's `latest` chunk. -/
theorem agg_line_eq (latest : LatestMap) (ws : List MachineWrapper)
    (f : MachineWrapper → OutputChunk)
    (hinv : ∀ w ∈ ws, findA w.handle latest = some (f w)) :
    agg_line latest (ws.map (fun w => w.handle)) = ws.reverse.map f := by
  unfold agg_line i3bar_order
  rw [← List.map_reverse]
  exact filterMap_findA_map latest f ws.reverse
    (fun w hw => hinv w (List.mem_reverse.mp hw))

/-- Unfolding of the startup fill over a cons cell. -/
theorem agg_fill_cons (padding : Int) (w : MachineWrapper)
    (tl : List MachineWrapper) (latest : LatestMap) :
    (w :: tl).foldl
        (fun m x => insertA x.handle (make_chunk x.i3_name padding x.init_view) m)
        latest =
      tl.foldl
        (fun m x => insertA x.handle (make_chunk x.i3_name padding x.init_view) m)
        (insertA w.handle (make_chunk w.i3_name padding w.init_view) latest) := rfl

/-- The startup fill does not touch handles outside the wrapper list. -/
theorem agg_fill_findA_notmem (padding : Int) (h : Nat) :
    ∀ (l : List MachineWrapper) (latest : LatestMap),
    h ∉ l.map (fun w => w.handle) →
    findA h (l.foldl
        (fun m x => insertA x.handle (make_chunk x.i3_name padding x.init_view) m)
        latest) = findA h latest := by
  intro l
  induction l with
  | nil => intro latest _; rfl
  | cons w tl ih =>
      intro latest hh
      rw [List.map_cons, List.mem_cons, not_or] at hh
      rw [agg_fill_cons, ih _ hh.2,
        findA_insertA_ne h w.handle _ latest (fun he => hh.1 he.symm)]

/-- After the startup fill, every wrapper's handle maps to the chunk of
its initial view (given unique handles). -/
theorem agg_fill_findA (padding : Int) :
    ∀ (l : List MachineWrapper) (latest : LatestMap) (w : MachineWrapper),
    (l.map (fun w => w.handle)).Nodup → w ∈ l →
    findA w.handle (l.foldl
        (fun m x => insertA x.handle (make_chunk x.i3_name padding x.init_view) m)
        latest) = some (make_chunk w.i3_name padding w.init_view) := by
  intro l
  induction l with
  | nil => intro latest w _ hw; cases hw
  | cons x tl ih =>
      intro latest w hnd hw
      rw [List.map_cons, List.nodup_cons] at hnd
      rcases List.mem_cons.mp hw with rfl | hw'
      · rw [agg_fill_cons, agg_fill_findA_notmem padding w.handle tl _ hnd.1,
          findA_insertA_self]
      · rw [agg_fill_cons]
        exact ih _ w hnd.2 hw'

/-- Unfolding of one aggregator refresh over a cons cell. -/
theorem agg_round_cons (padding : Int) (w : MachineWrapper)
    (tl : List MachineWrapper) (upd : Nat → Option View) (latest : LatestMap) :
    agg_round padding (w :: tl) upd latest =
      agg_round padding tl upd
        (match upd w.handle with
         | some v => insertA w.handle (make_chunk w.i3_name padding v) latest
         | none => latest) := rfl

/-- A refresh round does not touch handles outside the wrapper list. -/
theorem agg_round_findA_notmem (padding : Int) (upd : Nat → Option View) (h : Nat) :
    ∀ (l : List MachineWrapper) (latest : LatestMap),
    h ∉ l.map (fun w => w.handle) →
    findA h (agg_round padding l upd latest) = findA h latest := by
  intro l
  induction l with
  | nil => intro latest _; rfl
  | cons w tl ih =>
      intro latest hh
      rw [List.map_cons, List.mem_cons, not_or] at hh
      rw [agg_round_cons]
      cases hu : upd w.handle with
      | some v =>
          rw [ih _ hh.2, findA_insertA_ne h w.handle _ latest (fun he => hh.1 he.symm)]
      | none => rw [ih _ hh.2]

/-- After a refresh round, a wrapper's entry is the chunk of the
round's new view when the round reported a change, and is untouched
otherwise (given unique handles). -/
theorem agg_round_findA (padding : Int) (upd : Nat → Option View) :
    ∀ (l : List MachineWrapper) (latest : LatestMap) (w : MachineWrapper),
    (l.map (fun w => w.handle)).Nodup → w ∈ l →
    findA w.handle (agg_round padding l upd latest) =
      (match upd w.handle with
       | some v => some (make_chunk w.i3_name padding v)
       | none => findA w.handle latest) := by
  intro l
  induction l with
  | nil => intro latest w _ hw; cases hw
  | cons x tl ih =>
      intro latest w hnd hw
      rw [List.map_cons, List.nodup_cons] at hnd
      rcases List.mem_cons.mp hw with rfl | hw'
      · rw [agg_round_cons, agg_round_findA_notmem padding upd w.handle tl _ hnd.1]
        cases hu : upd w.handle with
        | some v => rw [findA_insertA_self]
        | none => rfl
      · have hxw : x.handle ≠ w.handle :=
          fun he => hnd.1 (he ▸ List.mem_map_of_mem (fun w => w.handle) hw')
        rw [agg_round_cons, ih _ w hnd.2 hw']
        cases hu : upd w.handle with
        | some v => rfl
        | none =>
            cases hux : upd x.handle with
            | some v => rw [findA_insertA_ne w.handle x.handle _ latest hxw]
            | none => rfl

/-- The periodic loop produces, for each tick `k`, the line of every
wrapper's view after the first `k + 1` rounds. -/
theorem agg_loop_spec (padding : Int) (ws : List MachineWrapper)
    (hnd : (ws.map (fun w => w.handle)).Nodup) :
    ∀ (rounds : List (Nat → Option View)) (latest : LatestMap)
      (V : MachineWrapper → View),
    (∀ w ∈ ws, findA w.handle latest = some (make_chunk w.i3_name padding (V w))) →
    agg_loop padding ws (ws.map (fun w => w.handle)) rounds latest =
      (List.range rounds.length).map (fun k =>
        ws.reverse.map (fun w =>
          make_chunk w.i3_name padding
            (viewAfter (V w) w.handle (rounds.take (k + 1))))) := by
  intro rounds
  induction rounds with
  | nil => intro latest V _; rfl
  | cons r rs ih =>
      intro latest V hinv
      have hinv' : ∀ w ∈ ws, findA w.handle (agg_round padding ws r latest) =
          some (make_chunk w.i3_name padding ((r w.handle).getD (V w))) := by
        intro w hw
        rw [agg_round_findA padding r ws latest w hnd hw]
        cases hu : r w.handle with
        | some v => rfl
        | none => simp [hinv w hw]
      show agg_line (agg_round padding ws r latest) (ws.map (fun w => w.handle)) ::
          agg_loop padding ws (ws.map (fun w => w.handle)) rs
            (agg_round padding ws r latest) = _
      rw [agg_line_eq _ ws _ hinv',
        ih (agg_round padding ws r latest) (fun w => (r w.handle).getD (V w)) hinv']
      simp only [List.length_cons]
      rw [List.range_succ_eq_map]
      simp only [List.map_cons, List.map_map, Function.comp_def,
        Nat.succ_eq_add_one, Nat.zero_add, take_one_cons, List.take_succ_cons,
        List.take_zero, viewAfter_cons, viewAfter_nil]

/-- C6: every output line the aggregator emits is exactly the reverse
of the configured wrapper list, one chunk per unit, each built from
that unit's last-known view (its initial view overridden by every
refresh so far); the startup line (index 0, views after zero rounds)
is emitted before any periodic tick; consequently every line has one
entry per configured unit. -/
theorem c6_aggregator_lines (padding : Int) (ws : List MachineWrapper)
    (rounds : List (Nat → Option View))
    (hnd : (ws.map (fun w => w.handle)).Nodup) :
    agg_output padding ws rounds =
      (List.range (rounds.length + 1)).map (fun k =>
        ws.reverse.map (fun w =>
          make_chunk w.i3_name padding
            (viewAfter w.init_view w.handle (rounds.take k))))
  ∧ (agg_output padding ws rounds).length = rounds.length + 1
  ∧ (∀ line ∈ agg_output padding ws rounds, line.length = ws.length) := by
  have hinit : ∀ w ∈ ws, findA w.handle (agg_init padding ws) =
      some (make_chunk w.i3_name padding w.init_view) :=
    fun w hw => agg_fill_findA padding ws [] w hnd hw
  have hmain : agg_output padding ws rounds =
      (List.range (rounds.length + 1)).map (fun k =>
        ws.reverse.map (fun w =>
          make_chunk w.i3_name padding
            (viewAfter w.init_view w.handle (rounds.take k)))) := by
    show agg_line (agg_init padding ws) (ws.map (fun w => w.handle)) ::
        agg_loop padding ws (ws.map (fun w => w.handle)) rounds
          (agg_init padding ws) = _
    rw [agg_line_eq _ ws _ hinit,
      agg_loop_spec padding ws hnd rounds _ (fun w => w.init_view) hinit,
      List.range_succ_eq_map]
    simp only [List.map_cons, List.map_map, Function.comp_def,
      Nat.succ_eq_add_one, List.take_zero, viewAfter_nil]
  refine ⟨hmain, ?_, ?_⟩
  · rw [hmain]
    simp
  · intro line hline
    rw [hmain] at hline
    simp only [List.mem_map, List.mem_range] at hline
    obtain ⟨k, _, rfl⟩ := hline
    simp

/-- A two-wrapper configuration for concrete runs. -/
def wsEx : List MachineWrapper :=
  [⟨"a::0", 0, ⟨Markup.text "a loading", Health.degraded⟩⟩,
   ⟨"b::1", 1, ⟨Markup.text "b loading", Health.degraded⟩⟩]

/-- One aggregator round in which only unit 0 published a new view. -/
def roundsEx : List (Nat → Option View) :=
  [fun h => if h = 0 then some (View.ok (Markup.text "a ready")) else none]

/-- Witness for C6 at the concrete two-unit configuration: the first
line is the startup line with both loading chunks, first-configured
unit rightmost; the next line keeps unit 1's loading chunk and updates
unit 0's. -/
theorem c6_aggregator_lines_witness :
    agg_output 1 wsEx roundsEx =
      (List.range 2).map (fun k =>
        wsEx.reverse.map (fun w =>
          make_chunk w.i3_name 1 (viewAfter w.init_view w.handle (roundsEx.take k))))
  ∧ agg_output 1 wsEx roundsEx =
      [[make_chunk "b::1" 1 ⟨Markup.text "b loading", Health.degraded⟩,
        make_chunk "a::0" 1 ⟨Markup.text "a loading", Health.degraded⟩],
       [make_chunk "b::1" 1 ⟨Markup.text "b loading", Health.degraded⟩,
        make_chunk "a::0" 1 (View.ok (Markup.text "a ready"))]] := by
  refine ⟨(c6_aggregator_lines 1 wsEx roundsEx (by decide)).1, ?_⟩
  rfl

end EmptyStatus
